import Mathlib

/-
Verification development for the AI-SEO-Blog-Generator core:
the agent execution envelope (src/agents/base_agent.py), the keyword
scoring algorithm (src/utils/keyword_scorer.py) and the pipeline
orchestrator (src/pipeline/orchestrator.py).

Python floats are modelled as rationals, except where the source computes
a base-10 logarithm (normalize_search_volume), which is modelled over the
reals.  Python dictionaries are modelled as association lists with
Python's insertion-order update semantics.  Wall-clock times, UUIDs and
timestamps are opaque parameters or placeholder strings; they carry no
logic in the source.
-/

/- Model of Python values stored in pipeline dictionaries. -/

inductive PVal where
  | str (s : String)
  | nat (n : ℕ)
  | list (xs : List PVal)
  | dict (entries : List (String × PVal))

abbrev PDict := List (String × PVal)

/- Association-list operations mirroring Python dict semantics:
insertion replaces the value of an existing key in place, otherwise
appends at the end; lookup returns the (unique) binding. -/

def assocLookup {β : Type} : List (String × β) → String → Option β
  | [], _ => none
  | (k1, v1) :: rest, k => if k1 = k then some v1 else assocLookup rest k

def assocInsert {β : Type} : List (String × β) → String → β → List (String × β)
  | [], k, v => [(k, v)]
  | (k1, v1) :: rest, k, v =>
      if k1 = k then (k1, v) :: rest else (k1, v1) :: assocInsert rest k v

def dictLookup (d : PDict) (k : String) : Option PVal := assocLookup d k

def dictInsert (d : PDict) (k : String) (v : PVal) : PDict := assocInsert d k v

/- Python dict.update: fold the right dict into the left, key by key. -/
def dictUpdate (d : PDict) (r : PDict) : PDict :=
  r.foldl (fun acc kv => dictInsert acc kv.1 kv.2) d

/- Executable models of the Python string primitives used by the parser
(str.split with a separator, str.strip, str.startswith).  They recurse on
an explicit fuel bound so that the kernel can evaluate them. -/

def pySplitAux (sep : List Char) : ℕ → List Char → List Char → List (List Char)
  | 0, _, acc => [acc.reverse]
  | _ + 1, [], acc => [acc.reverse]
  | fuel + 1, c :: rest, acc =>
      if sep.isPrefixOf (c :: rest) then
        acc.reverse :: pySplitAux sep fuel ((c :: rest).drop sep.length) []
      else
        pySplitAux sep fuel rest (c :: acc)

def pySplit (s : String) (sep : String) : List String :=
  (pySplitAux sep.data (s.data.length + 1) s.data []).map (fun cs => String.mk cs)

def pyStrip (s : String) : String :=
  String.mk (((s.data.dropWhile Char.isWhitespace).reverse.dropWhile Char.isWhitespace).reverse)

def pyStartsWith (s : String) (p : String) : Bool :=
  p.data.isPrefixOf s.data

/- True when Python would report the marker as a substring; the parser in
the source only ever tests this through the length of a split. -/
def contains_marker (s m : String) : Bool :=
  decide (1 < (pySplit s m).length)

/- AgentConfig (src/agents/base_agent.py, dataclass AgentConfig).  The
source defaults are max_retries=3, timeout_seconds=120, temperature=0.7,
max_tokens=4000, reasoning_enabled=True. -/
structure AgentConfig where
  name : String
  description : String
  max_retries : ℕ
  timeout_seconds : ℕ
  temperature : ℚ
  max_tokens : ℕ
  reasoning_enabled : Bool

/- Result of the chain-of-thought parser. -/
structure ParsedResponse where
  response : String
  reasoning_steps : List String
  confidence : ℚ

/- Confidence the parser assigns to a well-structured response whose
CONFIDENCE marker is absent (the string literal "80" in the source). -/
def structured_default_confidence : ℚ := 80

/- Numeric value of a digit list, modelling float(''.join(filter(str.isdigit, s)))
on the digits that survive the filter. -/
def digit_value (cs : List Char) : ℕ :=
  cs.foldl (fun acc c => acc * 10 + (c.toNat - 48)) 0

/- A reasoning-step line: non-empty and starting with a digit 1-9 or a dash
(faithful to startswith(tuple('123456789')) - note that 0 is excluded). -/
def is_reasoning_step_line (line : String) : Bool :=
  (line != "") &&
    ((["1", "2", "3", "4", "5", "6", "7", "8", "9"].any (fun d => pyStartsWith line d)) ||
      pyStartsWith line "-")

/- Structured branch of BaseAgent._parse_reasoning_response, applied to
parts[1] (the text after the first REASONING: marker).  Returns none when
the Python code would raise (IndexError on a missing RESPONSE: marker,
ValueError on a digit-free confidence string). -/
def parse_structured (part1 : String) : Option ParsedResponse :=
  match pySplit part1 "RESPONSE:" with
  | first :: second :: _ =>
      let reasoning_part := pyStrip first
      let response_part := pyStrip ((pySplit second "CONFIDENCE:").headD "")
      let conf_parts := pySplit part1 "CONFIDENCE:"
      let confidence_part :=
        if 1 < conf_parts.length then pyStrip (conf_parts.getD 1 "") else "80"
      let steps := ((pySplit reasoning_part "\n").map pyStrip).filter is_reasoning_step_line
      let digits := confidence_part.data.filter Char.isDigit
      if confidence_part = "" then
        some ⟨response_part, steps, structured_default_confidence⟩
      else if digits.isEmpty then none
      else some ⟨response_part, steps, min ((digit_value digits : ℚ)) 100⟩
  | _ => none

/- BaseAgent._parse_reasoning_response.  If the REASONING: marker is
absent the whole text becomes the response with one placeholder step and
confidence 70; if the structured parse raises the fallback is the raw
text with confidence 60. -/
def parse_reasoning_response (raw : String) : ParsedResponse :=
  match pySplit raw "REASONING:" with
  | _ :: part1 :: _ =>
      match parse_structured part1 with
      | some r => r
      | none => ⟨raw, ["Parsing failed, using raw response"], 60⟩
  | _ => ⟨raw, ["Direct response without structured reasoning"], 70⟩

/- Outcome of one attempt of the wrapped task: the awaited coroutine
either returns a value, exceeds the timeout, or raises. -/
inductive TaskOutcome (α : Type) where
  | ok (v : α)
  | timeout
  | exc (msg : String)

def TaskOutcome.isOk {α : Type} : TaskOutcome α → Bool
  | .ok _ => true
  | _ => false

def TaskOutcome.isExc {α : Type} : TaskOutcome α → Bool
  | .exc _ => true
  | _ => false

/- The last_error string recorded for a failed attempt (the timeout
message is distinct from the generic exception message). -/
def outcome_error_message {α : Type} (timeout_seconds : ℕ) : TaskOutcome α → String
  | .ok _ => ""
  | .timeout => "Task timed out after " ++ toString timeout_seconds ++ " seconds"
  | .exc m => "Task failed: " ++ m

/- The aggregated exception raised after the final attempt. -/
def aggregate_error_message (max_retries : ℕ) (last_error : Option String) : String :=
  "Task failed after " ++ toString max_retries ++ " attempts. Last error: " ++
    last_error.getD "None"

/- Trace of one call of the retry wrapper: how many attempts ran, which
backoff sleeps were performed (in seconds, in order), and the result. -/
structure RetryTrace (α : Type) where
  attempts : ℕ
  sleeps : List ℕ
  result : Except String α

/- Loop body of BaseAgent._execute_with_retry.  Faithful to the source:
on success return immediately; on asyncio.TimeoutError record the timeout
message and retry with NO sleep; on a generic exception record the
message and sleep 2 ** attempt seconds unless this was the last attempt;
when all attempts are used, raise the aggregated exception. -/
def retry_loop {α : Type} (timeout_seconds max_retries : ℕ) (beh : ℕ → TaskOutcome α) :
    ℕ → ℕ → Option String → List ℕ → RetryTrace α
  | 0, attempt, last_error, sleeps =>
      ⟨attempt, sleeps, Except.error (aggregate_error_message max_retries last_error)⟩
  | remaining + 1, attempt, _, sleeps =>
      match beh attempt with
      | .ok v => ⟨attempt + 1, sleeps, Except.ok v⟩
      | .timeout =>
          retry_loop timeout_seconds max_retries beh remaining (attempt + 1)
            (some (outcome_error_message timeout_seconds (TaskOutcome.timeout (α := α)))) sleeps
      | .exc m =>
          retry_loop timeout_seconds max_retries beh remaining (attempt + 1)
            (some (outcome_error_message timeout_seconds (TaskOutcome.exc (α := α) m)))
            (if attempt < max_retries - 1 then sleeps ++ [2 ^ attempt] else sleeps)

/- BaseAgent._execute_with_retry: up to max_retries attempts of the task,
whose per-attempt outcome is given by beh. -/
def execute_with_retry {α : Type} (config : AgentConfig) (beh : ℕ → TaskOutcome α) :
    RetryTrace α :=
  retry_loop config.timeout_seconds config.max_retries beh config.max_retries 0 none []

/- The sleeps the retry wrapper actually performs: one backoff of
2 ** i seconds for every non-final attempt i that raised a generic
exception; timed-out attempts never sleep. -/
def expected_backoff_sleeps {α : Type} (max_retries : ℕ) (beh : ℕ → TaskOutcome α) : List ℕ :=
  ((List.range max_retries).filter
      (fun i => decide (i < max_retries - 1) && (beh i).isExc)).map (fun i => 2 ^ i)

/- The message of the aggregated exception when every attempt fails. -/
def retry_failure_message {α : Type} (config : AgentConfig) (beh : ℕ → TaskOutcome α) : String :=
  aggregate_error_message config.max_retries
    (if config.max_retries = 0 then none
     else some (outcome_error_message config.timeout_seconds (beh (config.max_retries - 1))))

/- AgentResponse (src/agents/base_agent.py, dataclass AgentResponse). -/
structure AgentResponse where
  success : Bool
  data : PDict
  reasoning : List String
  errors : List String
  processing_time : ℚ
  metadata : List (String × PVal)

/- BaseAgent.execute: run the retried process; on success return the
process result UNCHANGED (the source never overwrites processing_time on
the success path); on failure synthesize the failure AgentResponse.
wall_clock is the measured duration (datetime.now() - start_time). -/
def execute (config : AgentConfig) (beh : ℕ → TaskOutcome AgentResponse)
    (wall_clock : ℚ) : AgentResponse :=
  match (execute_with_retry config beh).result with
  | .ok r => r
  | .error m =>
      { success := false
        data := []
        reasoning := []
        errors := ["Agent " ++ config.name ++ " failed: " ++ m]
        processing_time := wall_clock
        metadata := [("agent_name", PVal.str config.name),
                     ("failure_reason", PVal.str m)] }

/- Keyword scorer (src/utils/keyword_scorer.py). -/

/- A value in a trend series or under a score key: either a number or
something float() / statistics.mean would reject. -/
inductive TrendVal where
  | num (q : ℚ)
  | nonNumeric

/- The shapes calculate_trend_score distinguishes: a plain scalar, a
mapping with a score key, a mapping with a values series, anything else. -/
inductive TrendData where
  | num (q : ℚ)
  | dictScore (v : TrendVal)
  | dictValues (vs : List TrendVal)
  | other

structure KeywordMetrics where
  keyword : String
  search_volume : ℤ
  keyword_difficulty : ℚ
  cpc : ℚ
  trend_score : TrendData
  competition : String
  last_updated : ℕ

/- Benchmarks from KeywordScorer.__init__. -/
def benchmark_high_volume : ℚ := 100000
def benchmark_high_cpc : ℚ := 10.0
def benchmark_medium_cpc : ℚ := 2.0
def benchmark_low_cpc : ℚ := 0.5

/- Scoring weights (KeywordScorer.WEIGHTS). -/
def weight_search_volume : ℚ := 0.40
def weight_keyword_difficulty : ℚ := 0.30
def weight_cpc : ℚ := 0.20
def weight_trend : ℚ := 0.10

/- KeywordScorer.normalize_search_volume: logarithmic scaling against the
high-volume benchmark, clamped above at 100, and 0 for volume <= 0. -/
noncomputable def normalize_search_volume (volume : ℤ) : ℝ :=
  if volume ≤ 0 then 0
  else
    min ((Real.logb 10 (max (volume : ℝ) 1) / Real.logb 10 ((benchmark_high_volume : ℚ) : ℝ)) * 100)
      100

/- KeywordScorer.normalize_keyword_difficulty: clamp to 0-100, invert. -/
def normalize_keyword_difficulty (difficulty : ℚ) : ℚ :=
  if difficulty < 0 then 100 - 0
  else if 100 < difficulty then 100 - 100
  else 100 - difficulty

/- KeywordScorer.normalize_cpc: piecewise-linear across the cpc bands. -/
def normalize_cpc (cpc : ℚ) : ℚ :=
  if cpc ≤ 0 then 0
  else if benchmark_high_cpc ≤ cpc then 100
  else if benchmark_medium_cpc ≤ cpc then
    60 + (cpc - benchmark_medium_cpc) / (benchmark_high_cpc - benchmark_medium_cpc) * 40
  else if benchmark_low_cpc ≤ cpc then
    20 + (cpc - benchmark_low_cpc) / (benchmark_medium_cpc - benchmark_low_cpc) * 40
  else cpc / benchmark_low_cpc * 20

/- Python float() applied to a series element or score value. -/
def pyFloat : TrendVal → Option ℚ
  | .num q => some q
  | .nonNumeric => none

/- values[-12:] of a trend series. -/
def last_twelve (vs : List TrendVal) : List TrendVal :=
  vs.drop (vs.length - 12)

/- Convert a whole series to floats; none as soon as one element is
non-numeric (statistics.mean raises on the first bad element). -/
def pyFloats : List TrendVal → Option (List ℚ)
  | [] => some []
  | v :: rest =>
      match pyFloat v, pyFloats rest with
      | some q, some qs => some (q :: qs)
      | _, _ => none

/- statistics.mean on a non-empty numeric list. -/
def mean_values (qs : List ℚ) : ℚ := qs.sum / qs.length

/- KeywordScorer.calculate_trend_score.  Scalars and score keys are
clamped to 0-100; the values branch returns the raw mean of the last 12
points (the source does NOT clamp it); unrecognized shapes default to 50;
non-numeric payloads make the Python raise, modelled as Except.error. -/
def calculate_trend_score : TrendData → Except String ℚ
  | .num q => .ok (max 0 (min 100 q))
  | .dictScore v =>
      match pyFloat v with
      | some q => .ok (max 0 (min 100 q))
      | none => .error "ValueError: could not convert value to float"
  | .dictValues vs =>
      let recent := last_twelve vs
      if recent.isEmpty then .ok 50
      else
        match pyFloats recent with
        | some qs => .ok (mean_values qs)
        | none => .error "TypeError: cannot compute mean of non-numeric values"
  | .other => .ok 50

structure ComponentScores where
  search_volume : ℝ
  keyword_difficulty : ℚ
  cpc : ℚ
  trend : ℚ

structure KeywordScore where
  keyword : String
  total_score : ℝ
  component_scores : ComponentScores
  grade : String
  recommendation : String
  metrics : KeywordMetrics

/- KeywordScorer._calculate_grade: first grade whose threshold the score
reaches, scanning A+ (90), A (80), B+ (70), B (60), C+ (50), C (40), D (0). -/
noncomputable def calculate_grade (score : ℝ) : String :=
  if 90 ≤ score then "A+"
  else if 80 ≤ score then "A"
  else if 70 ≤ score then "B+"
  else if 60 ≤ score then "B"
  else if 50 ≤ score then "C+"
  else if 40 ≤ score then "C"
  else "D"

/- KeywordScorer._generate_recommendation (advisory text only; the
metrics argument of the source is unused by its body). -/
noncomputable def generate_recommendation (total_score : ℝ)
    (components : ComponentScores) : String :=
  let base :=
    if 80 ≤ total_score then ["Excellent keyword - high priority target"]
    else if 60 ≤ total_score then ["Good keyword - consider targeting"]
    else if 40 ≤ total_score then ["Moderate keyword - may be worth targeting"]
    else ["Low-value keyword - consider alternatives"]
  let base := base ++
    (if components.search_volume < 30 then ["Low search volume - consider long-tail variations"]
     else [])
  let base := base ++
    (if components.keyword_difficulty < 40 then ["High competition - may be difficult to rank"]
     else [])
  let base := base ++
    (if 80 < components.cpc then ["High commercial value - good for monetization"]
     else if components.cpc < 20 then ["Low commercial intent - focus on traffic volume"]
     else [])
  let base := base ++
    (if components.trend < 30 then ["Declining trend - monitor performance closely"]
     else if 70 < components.trend then ["Rising trend - opportunity for growth"]
     else [])
  String.intercalate " | " base

/- KeywordScorer.calculate_keyword_score: the only fallible step is the
trend computation; everything downstream is pure arithmetic. -/
noncomputable def calculate_keyword_score (metrics : KeywordMetrics) :
    Except String KeywordScore :=
  match calculate_trend_score metrics.trend_score with
  | .error e => .error e
  | .ok trend_component =>
      let volume_score := normalize_search_volume metrics.search_volume
      let difficulty_score := normalize_keyword_difficulty metrics.keyword_difficulty
      let cpc_score := normalize_cpc metrics.cpc
      let total_score : ℝ :=
        volume_score * ((weight_search_volume : ℚ) : ℝ) +
        ((difficulty_score : ℚ) : ℝ) * ((weight_keyword_difficulty : ℚ) : ℝ) +
        ((cpc_score : ℚ) : ℝ) * ((weight_cpc : ℚ) : ℝ) +
        ((trend_component : ℚ) : ℝ) * ((weight_trend : ℚ) : ℝ)
      let components : ComponentScores :=
        ⟨volume_score, difficulty_score, cpc_score, trend_component⟩
      .ok { keyword := metrics.keyword
            total_score := total_score
            component_scores := components
            grade := calculate_grade total_score
            recommendation := generate_recommendation total_score components
            metrics := metrics }

/- KeywordScorer.score_keyword_list: score every item, skip the ones that
raise, sort descending by total_score (Python's stable sort). -/
noncomputable def score_keyword_list (items : List KeywordMetrics) : List KeywordScore :=
  (items.filterMap (fun m => (calculate_keyword_score m).toOption)).mergeSort
    (fun a b => decide (b.total_score ≤ a.total_score))

/- Pipeline orchestrator (src/pipeline/orchestrator.py). -/

inductive PipelineStatus where
  | pending
  | running
  | completed
  | failed
  | cancelled
deriving DecidableEq

/- How one agent invocation ends when it does not succeed: an
asyncio.TimeoutError, or an exception with a message. -/
inductive AgentFailure where
  | timeout
  | failed (msg : String)

/- One entry of agents_config, together with the behaviour of the loaded
agent's execute coroutine on a given pipeline state. -/
structure AgentSpec where
  name : String
  timeout : ℕ
  beh : PDict → Except AgentFailure PDict

/- The error string PipelineOrchestrator.execute_agent appends to
self.errors for a failed invocation. -/
def agent_error_message (a : AgentSpec) : AgentFailure → String
  | .timeout => "Agent " ++ a.name ++ " timed out after " ++ toString a.timeout ++ "s"
  | .failed m => "Agent " ++ a.name ++ " failed: " ++ m

/- The mutable state the run loop threads: the pipeline_output dict, the
results-by-name map and the errors list. -/
structure RunAcc where
  out : PDict
  results : List (String × PDict)
  errors : List String

/- One iteration of the run loop: on success record the result and merge
it into pipeline_output; on failure append the error message and continue
(the exception re-raised by execute_agent is caught in the loop). -/
def run_agent_step (acc : RunAcc) (a : AgentSpec) : RunAcc :=
  match a.beh acc.out with
  | .ok r =>
      { out := dictUpdate acc.out r
        results := assocInsert acc.results a.name r
        errors := acc.errors }
  | .error f => { acc with errors := acc.errors ++ [agent_error_message a f] }

/- PipelineOrchestrator instance state.  results and errors live on the
instance and are initialized only in __init__, never in run_pipeline. -/
structure PipelineOrchestrator where
  agents_config : List AgentSpec
  status : PipelineStatus
  results : List (String × PDict)
  errors : List String

def PipelineOrchestrator.init (agents : List AgentSpec) : PipelineOrchestrator :=
  ⟨agents, PipelineStatus.pending, [], []⟩

/- The seeded pipeline_output: generated id and timestamp placeholders
plus the language default, then the caller's input merged over them. -/
def pipeline_seed (input : PDict) : PDict :=
  dictUpdate
    [("pipeline_id", PVal.str "generated-run-id"),
     ("generated_at", PVal.str "start-timestamp"),
     ("language", PVal.str "english")]
    input

/- The accumulator after the whole agent loop of run_pipeline. -/
def pipeline_final_acc (o : PipelineOrchestrator) (input : PDict) : RunAcc :=
  o.agents_config.foldl run_agent_step ⟨pipeline_seed input, o.results, o.errors⟩

/- Final status decision of run_pipeline: COMPLETED when there are no
errors, COMPLETED (partial success) when any result exists, else FAILED. -/
def pipeline_final_status (acc : RunAcc) : PipelineStatus :=
  if acc.errors.length = 0 then PipelineStatus.completed
  else if 0 < acc.results.length then PipelineStatus.completed
  else PipelineStatus.failed

/- The processing_summary dict attached to the returned pipeline_output
(the wall-clock processing_time is abstracted as 0). -/
def processing_summary (total successful failed : ℕ) (errors : List String) : PVal :=
  PVal.dict
    [("total_agents", PVal.nat total),
     ("successful_agents", PVal.nat successful),
     ("failed_agents", PVal.nat failed),
     ("processing_time", PVal.nat 0),
     ("errors", PVal.list (errors.map PVal.str))]

/- PipelineOrchestrator.run_pipeline: run every configured agent in order
over the accumulated state, then decide the status and attach the
summary.  Returns the updated orchestrator and the pipeline_output. -/
def run_pipeline (o : PipelineOrchestrator) (input : PDict) :
    PipelineOrchestrator × PDict :=
  (⟨o.agents_config,
    pipeline_final_status (pipeline_final_acc o input),
    (pipeline_final_acc o input).results,
    (pipeline_final_acc o input).errors⟩,
   dictInsert (pipeline_final_acc o input).out "processing_summary"
     (processing_summary o.agents_config.length
       (pipeline_final_acc o input).results.length
       (pipeline_final_acc o input).errors.length
       (pipeline_final_acc o input).errors))

/- The accumulator after the first i iterations of the run loop of a
fresh orchestrator, and the state agent i's execute is invoked on. -/
def run_acc_at (agents : List AgentSpec) (input : PDict) (i : ℕ) : RunAcc :=
  (agents.take i).foldl run_agent_step ⟨pipeline_seed input, [], []⟩

def state_before (agents : List AgentSpec) (input : PDict) (i : ℕ) : PDict :=
  (run_acc_at agents input i).out

/- Concrete instances used by the claim witnesses and counterexamples. -/

def cfgR : AgentConfig :=
  ⟨"retry_agent", "test agent", 3, 120, 0.7, 4000, true⟩

/- A process that always times out. -/
def behTimeoutOnly : ℕ → TaskOutcome AgentResponse := fun _ => TaskOutcome.timeout

/- A process that raises on attempts 0 and 2 and times out on attempt 1. -/
def behMixed : ℕ → TaskOutcome AgentResponse :=
  fun n => if n = 1 then TaskOutcome.timeout else TaskOutcome.exc "quota exhausted"

/- A process that always raises a generic exception. -/
def behExcOnly : ℕ → TaskOutcome AgentResponse := fun _ => TaskOutcome.exc "boom"

def cfgC3 : AgentConfig :=
  ⟨"test_agent", "Test agent for development", 3, 120, 0.7, 4000, true⟩

/- The response TestAgent.process returns: processing_time is 0.0 with
the source comment "Will be calculated by execute()". -/
def respC3 : AgentResponse :=
  { success := true
    data := [("analysis", PVal.str "ok")]
    reasoning := []
    errors := []
    processing_time := 0
    metadata := [("agent_name", PVal.str "test_agent")] }

def behC3 : ℕ → TaskOutcome AgentResponse := fun _ => TaskOutcome.ok respC3

/- The example metrics of the spec scenario: volume 50000, difficulty 75,
cpc 3.5, trend 80. -/
def mC6 : KeywordMetrics :=
  { keyword := "bluetooth headphones"
    search_volume := 50000
    keyword_difficulty := 75
    cpc := 3.5
    trend_score := TrendData.num 80
    competition := "medium"
    last_updated := 0 }

/- The total score the source computes for mC6. -/
noncomputable def totalC6 : ℝ :=
  normalize_search_volume mC6.search_volume * ((weight_search_volume : ℚ) : ℝ) +
  ((normalize_keyword_difficulty mC6.keyword_difficulty : ℚ) : ℝ) *
    ((weight_keyword_difficulty : ℚ) : ℝ) +
  ((normalize_cpc mC6.cpc : ℚ) : ℝ) * ((weight_cpc : ℚ) : ℝ) +
  ((80 : ℚ) : ℝ) * ((weight_trend : ℚ) : ℝ)

noncomputable def componentsC6 : ComponentScores :=
  ⟨normalize_search_volume mC6.search_volume,
   normalize_keyword_difficulty mC6.keyword_difficulty,
   normalize_cpc mC6.cpc, 80⟩

/- The KeywordScore the source computes for mC6. -/
noncomputable def sC6 : KeywordScore :=
  { keyword := mC6.keyword
    total_score := totalC6
    component_scores := componentsC6
    grade := calculate_grade totalC6
    recommendation := generate_recommendation totalC6 componentsC6
    metrics := mC6 }

/- Three orchestrator agents where only the second fails. -/

def outA : PDict := [("market_research_result", PVal.str "research data")]

def outC : PDict := [("content_writer_result", PVal.str "article body")]

def agentA : AgentSpec := ⟨"market_research", 120, fun _ => Except.ok outA⟩

def agentB : AgentSpec := ⟨"keyword_analyzer", 90, fun _ => Except.error (AgentFailure.failed "boom")⟩

def agentC : AgentSpec := ⟨"content_writer", 300, fun _ => Except.ok outC⟩

def agents3 : List AgentSpec := [agentA, agentB, agentC]

def input3 : PDict := [("product_name", PVal.str "Wireless Gaming Mouse")]

/- An agent that always fails, and an orchestrator that already carries
the results and errors of a previous run. -/

def agentDown : AgentSpec := ⟨"market_research", 120, fun _ => Except.error (AgentFailure.failed "down")⟩

def oAccum : PipelineOrchestrator :=
  ⟨[agentDown], PipelineStatus.completed,
   [("market_research", outA)],
   ["Agent keyword_analyzer failed: boom"]⟩

/- Helper lemmas about the association-list dictionary model. -/

theorem assocLookup_insert_self {β : Type} (d : List (String × β)) (k : String) (v : β) :
    assocLookup (assocInsert d k v) k = some v := by
  induction d with
  | nil => simp [assocInsert, assocLookup]
  | cons hd tl ih =>
      obtain ⟨k1, v1⟩ := hd
      by_cases h : k1 = k
      · simp [assocInsert, h, assocLookup]
      · simp [assocInsert, h, assocLookup, ih]

theorem assocLookup_insert_ne {β : Type} (d : List (String × β)) {k k1 : String} (v : β)
    (h : k ≠ k1) : assocLookup (assocInsert d k v) k1 = assocLookup d k1 := by
  induction d with
  | nil => simp [assocInsert, assocLookup, h]
  | cons hd tl ih =>
      obtain ⟨k2, v2⟩ := hd
      by_cases h2 : k2 = k
      · subst h2
        simp [assocInsert, assocLookup, h]
      · by_cases h3 : k2 = k1
        · subst h3
          simp [assocInsert, h2, assocLookup]
        · simp [assocInsert, h2, assocLookup, h3, ih]

theorem assocLookup_insert_isSome {β : Type} (d : List (String × β)) (k k1 : String) (v : β)
    (h : (assocLookup d k1).isSome = true) :
    (assocLookup (assocInsert d k v) k1).isSome = true := by
  by_cases hk : k = k1
  · subst hk
    simp [assocLookup_insert_self]
  · rw [assocLookup_insert_ne d v hk]
    exact h

theorem assocInsert_length_of_fresh {β : Type} {d : List (String × β)} {k : String} (v : β)
    (h : assocLookup d k = none) : (assocInsert d k v).length = d.length + 1 := by
  induction d with
  | nil => simp [assocInsert]
  | cons hd tl ih =>
      obtain ⟨k1, v1⟩ := hd
      by_cases h1 : k1 = k
      · simp [assocLookup, h1] at h
      · simp only [assocLookup, if_neg h1] at h
        simp [assocInsert, h1, ih h]

theorem mem_assocInsert {β : Type} {d : List (String × β)} {k : String} {v : β}
    {p : String × β} (h : p ∈ assocInsert d k v) : p ∈ d ∨ p = (k, v) := by
  induction d with
  | nil =>
      simp [assocInsert] at h
      exact Or.inr h
  | cons hd tl ih =>
      obtain ⟨k1, v1⟩ := hd
      by_cases h1 : k1 = k
      · subst h1
        simp only [assocInsert, if_pos rfl] at h
        rcases List.mem_cons.mp h with heq | hmem
        · exact Or.inr heq
        · exact Or.inl (List.mem_cons_of_mem _ hmem)
      · simp only [assocInsert, if_neg h1] at h
        rcases List.mem_cons.mp h with heq | hmem
        · exact Or.inl (heq ▸ List.mem_cons_self _ _)
        · rcases ih hmem with hin | hkv
          · exact Or.inl (List.mem_cons_of_mem _ hin)
          · exact Or.inr hkv

theorem dictUpdate_isSome (r : PDict) : ∀ (d : PDict) (k : String),
    (assocLookup d k).isSome = true → (assocLookup (dictUpdate d r) k).isSome = true := by
  induction r with
  | nil => intro d k h; simpa [dictUpdate] using h
  | cons hd tl ih =>
      intro d k h
      simp only [dictUpdate, List.foldl_cons] at *
      exact ih (dictInsert d hd.1 hd.2) k (assocLookup_insert_isSome d hd.1 k hd.2 h)

theorem dictUpdate_mem_isSome (r : PDict) : ∀ (d : PDict) (k : String) (v : PVal),
    (k, v) ∈ r → (assocLookup (dictUpdate d r) k).isSome = true := by
  induction r with
  | nil => intro d k v h; cases h
  | cons hd tl ih =>
      intro d k v h
      simp only [dictUpdate, List.foldl_cons]
      rcases List.mem_cons.mp h with heq | hmem
      · have hbase : (assocLookup (dictInsert d hd.1 hd.2) k).isSome = true := by
          have : hd.1 = k := by rw [← heq]
          rw [this]
          simp [dictInsert, assocLookup_insert_self]
        exact dictUpdate_isSome tl (dictInsert d hd.1 hd.2) k hbase
      · exact ih (dictInsert d hd.1 hd.2) k v hmem

/- Helper lemma: when no attempt ever succeeds, the retry loop runs every
remaining attempt, sleeps exactly after the non-final generic-exception
attempts, and raises the aggregated error built from the last attempt. -/
theorem retry_loop_all_fail {α : Type} (T M : ℕ) (beh : ℕ → TaskOutcome α)
    (hb : ∀ n, (beh n).isOk = false) :
    ∀ (remaining attempt : ℕ) (le0 : Option String) (sleeps : List ℕ),
      retry_loop T M beh remaining attempt le0 sleeps =
        ⟨attempt + remaining,
         sleeps ++ ((List.range' attempt remaining).filter
             (fun i => decide (i < M - 1) && (beh i).isExc)).map (fun i => 2 ^ i),
         Except.error (aggregate_error_message M
           (if remaining = 0 then le0
            else some (outcome_error_message T (beh (attempt + remaining - 1)))))⟩ := by
  intro remaining
  induction remaining with
  | zero =>
      intro attempt le0 sleeps
      simp [retry_loop]
  | succ rem ih =>
      intro attempt le0 sleeps
      cases hba : beh attempt with
      | ok v =>
          have hfalse := hb attempt
          rw [hba] at hfalse
          simp [TaskOutcome.isOk] at hfalse
      | timeout =>
          simp only [retry_loop, hba]
          rw [ih]
          simp only [RetryTrace.mk.injEq]
          refine ⟨by omega, ?_, ?_⟩
          · rw [List.range'_succ, List.filter_cons]
            simp [hba, TaskOutcome.isExc]
          · rcases Nat.eq_zero_or_pos rem with h0 | hpos
            · subst h0
              have e1 : attempt + 1 - 1 = attempt := by omega
              simp only [if_pos rfl, Nat.add_zero, e1]
              rw [hba]
              simp
            · have hr : rem ≠ 0 := by omega
              have hr1 : rem + 1 ≠ 0 := by omega
              have e1 : attempt + 1 + rem - 1 = attempt + rem := by omega
              have e2 : attempt + (rem + 1) - 1 = attempt + rem := by omega
              simp only [if_neg hr, if_neg hr1, e1, e2]
      | exc m =>
          simp only [retry_loop, hba]
          rw [ih]
          simp only [RetryTrace.mk.injEq]
          refine ⟨by omega, ?_, ?_⟩
          · rw [List.range'_succ, List.filter_cons]
            by_cases hlt : attempt < M - 1
            · simp [hlt, hba, TaskOutcome.isExc]
            · simp [hlt, hba, TaskOutcome.isExc]
          · rcases Nat.eq_zero_or_pos rem with h0 | hpos
            · subst h0
              have e1 : attempt + 1 - 1 = attempt := by omega
              simp only [if_pos rfl, Nat.add_zero, e1]
              rw [hba]
              simp
            · have hr : rem ≠ 0 := by omega
              have hr1 : rem + 1 ≠ 0 := by omega
              have e1 : attempt + 1 + rem - 1 = attempt + rem := by omega
              have e2 : attempt + (rem + 1) - 1 = attempt + rem := by omega
              simp only [if_neg hr, if_neg hr1, e1, e2]

/- Helper: the retry wrapper on a never-succeeding task runs every
attempt, performs exactly the expected backoff sleeps, and ends in the
aggregated error carrying the last attempt's message. -/
theorem execute_with_retry_attempts_all_fail {α : Type} (config : AgentConfig)
    (beh : ℕ → TaskOutcome α) (hb : ∀ n, (beh n).isOk = false) :
    (execute_with_retry config beh).attempts = config.max_retries := by
  unfold execute_with_retry
  rw [retry_loop_all_fail config.timeout_seconds config.max_retries beh hb]
  simp

theorem execute_with_retry_sleeps_all_fail {α : Type} (config : AgentConfig)
    (beh : ℕ → TaskOutcome α) (hb : ∀ n, (beh n).isOk = false) :
    (execute_with_retry config beh).sleeps = expected_backoff_sleeps config.max_retries beh := by
  unfold execute_with_retry
  rw [retry_loop_all_fail config.timeout_seconds config.max_retries beh hb]
  rw [expected_backoff_sleeps, List.range_eq_range']
  simp

theorem execute_with_retry_result_all_fail {α : Type} (config : AgentConfig)
    (beh : ℕ → TaskOutcome α) (hb : ∀ n, (beh n).isOk = false) :
    (execute_with_retry config beh).result = Except.error (retry_failure_message config beh) := by
  unfold execute_with_retry
  rw [retry_loop_all_fail config.timeout_seconds config.max_retries beh hb]
  rcases Nat.eq_zero_or_pos config.max_retries with h0 | hpos
  · simp [retry_failure_message, h0]
  · have h1 : config.max_retries ≠ 0 := by omega
    simp [retry_failure_message, h1]

/-- C1: corrected - the retry wrapper attempts the task up to max_retries
times, treats a timeout as a retryable failure with a distinct message,
raises a single aggregated failure carrying the last error message on
exhaustion, and execute then returns success=false with an error message
containing the configured retry count; but the exponential backoff sleep
of 2 ^ attempt seconds happens only after a non-final attempt that raised
a generic exception - a timed-out attempt is retried immediately with no
wait, contrary to the claim. -/
theorem retry_backoff_only_for_exceptions (config : AgentConfig)
    (beh : ℕ → TaskOutcome AgentResponse) (wall_clock : ℚ)
    (hmr : 1 ≤ config.max_retries) (hb : ∀ n, (beh n).isOk = false) :
    (execute_with_retry config beh).attempts = config.max_retries
    ∧ (execute_with_retry config beh).sleeps = expected_backoff_sleeps config.max_retries beh
    ∧ (execute_with_retry config beh).result =
        Except.error (aggregate_error_message config.max_retries
          (some (outcome_error_message config.timeout_seconds (beh (config.max_retries - 1)))))
    ∧ (execute config beh wall_clock).success = false
    ∧ (execute config beh wall_clock).errors =
        ["Agent " ++ config.name ++ " failed: " ++
          aggregate_error_message config.max_retries
            (some (outcome_error_message config.timeout_seconds (beh (config.max_retries - 1))))] := by
  have hmsg : retry_failure_message config beh =
      aggregate_error_message config.max_retries
        (some (outcome_error_message config.timeout_seconds (beh (config.max_retries - 1)))) := by
    unfold retry_failure_message
    rw [if_neg (by omega)]
  have hr := execute_with_retry_result_all_fail config beh hb
  refine ⟨execute_with_retry_attempts_all_fail config beh hb,
          execute_with_retry_sleeps_all_fail config beh hb,
          by rw [hr, hmsg], ?_, ?_⟩
  · unfold execute
    rw [hr]
  · unfold execute
    rw [hr, hmsg]

/-- C1 counterexample: a process that always times out is retried with NO
backoff sleep at all (the claim requires sleeps of 1 and 2 seconds
between the three attempts), while the attempt count, the aggregated
message and the failure envelope still behave as claimed. -/
theorem retry_timeout_no_backoff_cex :
    (execute_with_retry cfgR behTimeoutOnly).attempts = 3
    ∧ (execute_with_retry cfgR behTimeoutOnly).sleeps = []
    ∧ ([] : List ℕ) ≠ [2 ^ 0, 2 ^ 1]
    ∧ (execute cfgR behTimeoutOnly 9).success = false
    ∧ (execute cfgR behTimeoutOnly 9).errors =
        ["Agent retry_agent failed: Task failed after 3 attempts. Last error: Task timed out after 120 seconds"] :=
  ⟨rfl, rfl, by decide, rfl, rfl⟩

/-- C1 witness: the amended theorem applied to a concrete config with
max_retries = 3 and a process that raises, times out, then raises. -/
theorem retry_backoff_only_for_exceptions_witness :
    (1 ≤ cfgR.max_retries ∧ ∀ n, (behMixed n).isOk = false)
    ∧ ((execute_with_retry cfgR behMixed).attempts = cfgR.max_retries
       ∧ (execute_with_retry cfgR behMixed).sleeps = expected_backoff_sleeps cfgR.max_retries behMixed
       ∧ (execute_with_retry cfgR behMixed).result =
           Except.error (aggregate_error_message cfgR.max_retries
             (some (outcome_error_message cfgR.timeout_seconds (behMixed (cfgR.max_retries - 1)))))
       ∧ (execute cfgR behMixed 7).success = false
       ∧ (execute cfgR behMixed 7).errors =
           ["Agent " ++ cfgR.name ++ " failed: " ++
             aggregate_error_message cfgR.max_retries
               (some (outcome_error_message cfgR.timeout_seconds (behMixed (cfgR.max_retries - 1))))]) :=
  ⟨⟨by norm_num [cfgR],
    by intro n; by_cases h : n = 1 <;> simp [behMixed, h, TaskOutcome.isOk]⟩,
   retry_backoff_only_for_exceptions cfgR behMixed 7 (by norm_num [cfgR])
     (by intro n; by_cases h : n = 1 <;> simp [behMixed, h, TaskOutcome.isOk])⟩

/-- C3: code_bug - on success, execute returns the AgentResponse produced
by process completely unchanged: the processing_time field is NOT
overwritten with the measured wall-clock duration (here 5 seconds); it
keeps the value 0.0 that TestAgent.process filled in with the comment
"Will be calculated by execute()", and the returned response does not
depend on the measured duration at all. -/
theorem execute_keeps_process_processing_time :
    execute cfgC3 behC3 5 = respC3
    ∧ respC3.processing_time = 0
    ∧ (execute cfgC3 behC3 5).processing_time ≠ 5
    ∧ (∀ w1 w2 : ℚ, execute cfgC3 behC3 w1 = execute cfgC3 behC3 w2) := by
  refine ⟨rfl, rfl, ?_, fun w1 w2 => rfl⟩
  show (0 : ℚ) ≠ 5
  norm_num

/-- C4: confirmed - when every attempt of the retried process fails,
execute never propagates the exception: it returns a synthesized
AgentResponse with success=false, empty data, the single error message
built from the agent name and the aggregated failure message, and
metadata carrying the agent name and the failure reason; in particular
the response satisfies the invariant that a failed response has empty
data and non-empty errors. -/
theorem execute_failure_envelope (config : AgentConfig)
    (beh : ℕ → TaskOutcome AgentResponse) (wall_clock : ℚ)
    (hb : ∀ n, (beh n).isOk = false) :
    execute config beh wall_clock =
      { success := false
        data := []
        reasoning := []
        errors := ["Agent " ++ config.name ++ " failed: " ++ retry_failure_message config beh]
        processing_time := wall_clock
        metadata := [("agent_name", PVal.str config.name),
                     ("failure_reason", PVal.str (retry_failure_message config beh))] }
    ∧ (execute config beh wall_clock).success = false
    ∧ (execute config beh wall_clock).data = []
    ∧ (execute config beh wall_clock).errors ≠ [] := by
  have h : execute config beh wall_clock =
      { success := false
        data := []
        reasoning := []
        errors := ["Agent " ++ config.name ++ " failed: " ++ retry_failure_message config beh]
        processing_time := wall_clock
        metadata := [("agent_name", PVal.str config.name),
                     ("failure_reason", PVal.str (retry_failure_message config beh))] } := by
    unfold execute
    rw [execute_with_retry_result_all_fail config beh hb]
  refine ⟨h, by rw [h], by rw [h], by rw [h]; simp⟩

/-- C4 witness: the failure envelope at a concrete config and a process
that raises a generic exception on every attempt. -/
theorem execute_failure_envelope_witness :
    (∀ n, (behExcOnly n).isOk = false)
    ∧ (execute cfgR behExcOnly 2 =
        { success := false
          data := []
          reasoning := []
          errors := ["Agent " ++ cfgR.name ++ " failed: " ++ retry_failure_message cfgR behExcOnly]
          processing_time := 2
          metadata := [("agent_name", PVal.str cfgR.name),
                       ("failure_reason", PVal.str (retry_failure_message cfgR behExcOnly))] }
       ∧ (execute cfgR behExcOnly 2).success = false
       ∧ (execute cfgR behExcOnly 2).data = []
       ∧ (execute cfgR behExcOnly 2).errors ≠ []) :=
  ⟨fun _ => rfl, execute_failure_envelope cfgR behExcOnly 2 (fun _ => rfl)⟩

/-- C8: confirmed - for any text lacking the REASONING:, RESPONSE: and
CONFIDENCE: markers, the parser returns the whole original text as the
response, exactly one placeholder reasoning step, and confidence 70,
which is strictly below the default confidence 80 assigned to a
well-structured response. -/
theorem parse_fallback_no_markers (s : String)
    (h1 : contains_marker s "REASONING:" = false)
    (h2 : contains_marker s "RESPONSE:" = false)
    (h3 : contains_marker s "CONFIDENCE:" = false) :
    parse_reasoning_response s =
      ⟨s, ["Direct response without structured reasoning"], 70⟩
    ∧ (70 : ℚ) < structured_default_confidence := by
  constructor
  · have hlen : ¬ 1 < (pySplit s "REASONING:").length := by
      simpa [contains_marker] using h1
    rcases hp : pySplit s "REASONING:" with _ | ⟨a, _ | ⟨b, t⟩⟩
    · simp [parse_reasoning_response, hp]
    · simp [parse_reasoning_response, hp]
    · exfalso
      apply hlen
      rw [hp]
      simp
  · norm_num [structured_default_confidence]

/-- C8 witness: the fallback parse on a concrete marker-free text. -/
theorem parse_fallback_no_markers_witness :
    (contains_marker "a plain answer" "REASONING:" = false
     ∧ contains_marker "a plain answer" "RESPONSE:" = false
     ∧ contains_marker "a plain answer" "CONFIDENCE:" = false)
    ∧ (parse_reasoning_response "a plain answer" =
        ⟨"a plain answer", ["Direct response without structured reasoning"], 70⟩
       ∧ (70 : ℚ) < structured_default_confidence) :=
  ⟨⟨by decide, by decide, by decide⟩,
   parse_fallback_no_markers "a plain answer" (by decide) (by decide) (by decide)⟩

/- Helper bounds for the base-10 logarithm used by the volume normalizer:
logb 10 100000 = 5 and 4.698 < logb 10 50000 < 4.699. -/

theorem logb_ten_hundredthousand : Real.logb 10 100000 = 5 := by
  have h : (100000 : ℝ) = (10 : ℝ) ^ (5 : ℝ) := by
    rw [show (5 : ℝ) = ((5 : ℕ) : ℝ) by norm_num, Real.rpow_natCast]
    norm_num
  rw [h, Real.logb_rpow (by norm_num) (by norm_num)]

theorem logb_ten_50000_lt : Real.logb 10 50000 < 4699 / 1000 := by
  rw [Real.logb_lt_iff_lt_rpow (by norm_num) (by norm_num)]
  have key : ((10 : ℝ) ^ ((4699 : ℝ) / 1000)) ^ (1000 : ℕ) = (10 : ℝ) ^ (4699 : ℕ) := by
    rw [← Real.rpow_natCast ((10 : ℝ) ^ ((4699 : ℝ) / 1000)) 1000,
      ← Real.rpow_mul (by norm_num : (0 : ℝ) ≤ 10)]
    norm_num
  refine lt_of_pow_lt_pow_left₀ 1000 (by positivity) ?_
  rw [key]
  norm_num

theorem lt_logb_ten_50000 : 2349 / 500 < Real.logb 10 50000 := by
  rw [Real.lt_logb_iff_rpow_lt (by norm_num) (by norm_num)]
  have key : ((10 : ℝ) ^ ((2349 : ℝ) / 500)) ^ (1000 : ℕ) = (10 : ℝ) ^ (4698 : ℕ) := by
    rw [← Real.rpow_natCast ((10 : ℝ) ^ ((2349 : ℝ) / 500)) 1000,
      ← Real.rpow_mul (by norm_num : (0 : ℝ) ≤ 10)]
    norm_num
  refine lt_of_pow_lt_pow_left₀ 1000 (by positivity) ?_
  rw [key]
  norm_num

/- Helper: the volume normalizer at the example volume 50000. -/
theorem normalize_search_volume_50000 :
    normalize_search_volume 50000 = Real.logb 10 50000 * 20 := by
  unfold normalize_search_volume
  rw [if_neg (by norm_num)]
  have hcast : ((50000 : ℤ) : ℝ) = (50000 : ℝ) := by push_cast; ring
  rw [hcast]
  have hb : ((benchmark_high_volume : ℚ) : ℝ) = 100000 := by
    norm_num [benchmark_high_volume]
  rw [hb, logb_ten_hundredthousand, max_eq_left (by norm_num : (1 : ℝ) ≤ 50000)]
  rw [min_eq_left (by linarith [logb_ten_50000_lt])]
  ring

theorem normalize_keyword_difficulty_75 : normalize_keyword_difficulty 75 = 25 := by
  norm_num [normalize_keyword_difficulty]

theorem normalize_cpc_3_5 : normalize_cpc 3.5 = 135 / 2 := by
  norm_num [normalize_cpc, benchmark_high_cpc, benchmark_medium_cpc, benchmark_low_cpc]

theorem trend_score_mC6 : calculate_trend_score mC6.trend_score = Except.ok 80 := by
  show calculate_trend_score (TrendData.num 80) = Except.ok 80
  simp only [calculate_trend_score, Except.ok.injEq]
  norm_num

/- Helper: the scorer on the example metrics produces exactly sC6. -/
theorem calculate_keyword_score_mC6 : calculate_keyword_score mC6 = Except.ok sC6 := by
  unfold calculate_keyword_score
  rw [trend_score_mC6]
  rfl

theorem totalC6_eq : totalC6 = Real.logb 10 50000 * 8 + 29 := by
  unfold totalC6
  rw [show mC6.search_volume = (50000 : ℤ) from rfl,
      show mC6.keyword_difficulty = (75 : ℚ) from rfl,
      show mC6.cpc = (3.5 : ℚ) from rfl,
      normalize_search_volume_50000, normalize_keyword_difficulty_75, normalize_cpc_3_5]
  norm_num [weight_search_volume, weight_keyword_difficulty, weight_cpc, weight_trend]
  ring

theorem totalC6_bounds : (66.5 : ℝ) < totalC6 ∧ totalC6 < 66.6 := by
  rw [totalC6_eq]
  constructor
  · nlinarith [lt_logb_ten_50000]
  · nlinarith [logb_ten_50000_lt]

theorem gradeC6 : calculate_grade totalC6 = "B" := by
  have hb := totalC6_bounds
  unfold calculate_grade
  rw [if_neg (by nlinarith [hb.2]), if_neg (by nlinarith [hb.2]),
      if_neg (by nlinarith [hb.2]), if_pos (by nlinarith [hb.1])]

/-- C6: corrected - on metrics volume 50000, difficulty 75, cpc 3.5,
trend 80 the source computes cpc_score exactly 67.5 (not about 73.3) and
a composite total near 66.59 (not about 59.6): the cpc score is below 72
and the total is above 66, so the claimed approximate values are wrong,
while the grade is indeed B. -/
theorem keyword_score_example_cex :
    calculate_keyword_score mC6 = Except.ok sC6
    ∧ sC6.component_scores.cpc = 135 / 2
    ∧ ¬ ((72 : ℚ) ≤ sC6.component_scores.cpc)
    ∧ (66 : ℝ) < sC6.total_score
    ∧ ¬ (sC6.total_score ≤ 61) := by
  have hcpc : sC6.component_scores.cpc = 135 / 2 := by
    show normalize_cpc mC6.cpc = 135 / 2
    rw [show mC6.cpc = (3.5 : ℚ) from rfl, normalize_cpc_3_5]
  have ht := totalC6_bounds
  refine ⟨calculate_keyword_score_mC6, hcpc, ?_, ?_, ?_⟩
  · rw [hcpc]
    norm_num
  · show (66 : ℝ) < totalC6
    linarith [ht.1]
  · show ¬ (totalC6 ≤ 61)
    intro hcon
    linarith [ht.1]

/-- C6 amended: on metrics volume 50000, difficulty 75, cpc 3.5, trend 80
the scorer produces difficulty_score 25, cpc_score 67.5 (within 60-100),
trend_score 80, volume_score about 93.98 (strictly between 93.9 and 94),
a weighted composite total strictly between 66.5 and 66.6, and grade B. -/
theorem keyword_score_example_actual :
    calculate_keyword_score mC6 = Except.ok sC6
    ∧ sC6.component_scores.keyword_difficulty = 25
    ∧ sC6.component_scores.cpc = 135 / 2
    ∧ (60 : ℚ) ≤ 135 / 2 ∧ (135 : ℚ) / 2 ≤ 100
    ∧ sC6.component_scores.trend = 80
    ∧ (93.9 : ℝ) < sC6.component_scores.search_volume
    ∧ sC6.component_scores.search_volume < 94
    ∧ (66.5 : ℝ) < sC6.total_score
    ∧ sC6.total_score < 66.6
    ∧ sC6.grade = "B" := by
  have hvol : sC6.component_scores.search_volume = Real.logb 10 50000 * 20 := by
    show normalize_search_volume mC6.search_volume = Real.logb 10 50000 * 20
    rw [show mC6.search_volume = (50000 : ℤ) from rfl, normalize_search_volume_50000]
  have ht := totalC6_bounds
  refine ⟨calculate_keyword_score_mC6, ?_, ?_, by norm_num, by norm_num, rfl, ?_, ?_, ?_, ?_, ?_⟩
  · show normalize_keyword_difficulty mC6.keyword_difficulty = 25
    rw [show mC6.keyword_difficulty = (75 : ℚ) from rfl, normalize_keyword_difficulty_75]
  · show normalize_cpc mC6.cpc = 135 / 2
    rw [show mC6.cpc = (3.5 : ℚ) from rfl, normalize_cpc_3_5]
  · rw [hvol]
    nlinarith [lt_logb_ten_50000]
  · rw [hvol]
    nlinarith [logb_ten_50000_lt]
  · exact ht.1
  · exact ht.2
  · exact gradeC6

/- Helper: float() succeeds on every element of a numeric series. -/
theorem pyFloats_map (l : List ℚ) : pyFloats (l.map TrendVal.num) = some l := by
  induction l with
  | nil => rfl
  | cons h t ih => simp [pyFloats, pyFloat, ih]

/-- C7: corrected - the trend normalizer is NOT total-and-clamped on all
shapes: a values series is averaged without clamping (a single data point
of 200 yields 200, outside 0-100), and a score key holding a non-numeric
value makes the Python float() call raise instead of returning a clamped
number. -/
theorem trend_values_unclamped_cex :
    calculate_trend_score (TrendData.dictValues [TrendVal.num 200]) = Except.ok 200
    ∧ ¬ ((200 : ℚ) ≤ 100)
    ∧ calculate_trend_score (TrendData.dictScore TrendVal.nonNumeric) =
        Except.error "ValueError: could not convert value to float" := by
  refine ⟨?_, by norm_num, rfl⟩
  have h : calculate_trend_score (TrendData.dictValues [TrendVal.num 200]) =
      Except.ok (mean_values [200]) := rfl
  rw [h]
  simp only [Except.ok.injEq, mean_values]
  norm_num

/-- C7 amended: the numeric normalizers are total and clamp into 0-100
(search volume, difficulty, cpc), a scalar trend and a numeric score key
are clamped into 0-100, an unrecognized trend shape yields 50; but the
values-series branch returns the raw mean of the last 12 numeric points
without clamping, and a non-numeric payload under a recognized key
raises. -/
theorem normalization_totality_amended :
    (∀ v : ℤ, 0 ≤ normalize_search_volume v ∧ normalize_search_volume v ≤ 100)
    ∧ (∀ d : ℚ, 0 ≤ normalize_keyword_difficulty d ∧ normalize_keyword_difficulty d ≤ 100)
    ∧ (∀ c : ℚ, 0 ≤ normalize_cpc c ∧ normalize_cpc c ≤ 100)
    ∧ (∀ q : ℚ, calculate_trend_score (TrendData.num q) = Except.ok (max 0 (min 100 q))
        ∧ 0 ≤ max 0 (min 100 q) ∧ max 0 (min 100 q) ≤ 100)
    ∧ (∀ q : ℚ, calculate_trend_score (TrendData.dictScore (TrendVal.num q)) =
        Except.ok (max 0 (min 100 q)))
    ∧ calculate_trend_score TrendData.other = Except.ok 50
    ∧ (∀ qs : List ℚ, qs ≠ [] →
        calculate_trend_score (TrendData.dictValues (qs.map TrendVal.num)) =
          Except.ok (mean_values (qs.drop (qs.length - 12)))) := by
  refine ⟨?_, ?_, ?_, ?_, fun q => rfl, rfl, ?_⟩
  · intro v
    unfold normalize_search_volume
    by_cases hv : v ≤ 0
    · rw [if_pos hv]
      norm_num
    · rw [if_neg hv]
      have hb : ((benchmark_high_volume : ℚ) : ℝ) = 100000 := by
        norm_num [benchmark_high_volume]
      rw [hb, logb_ten_hundredthousand]
      have hlog : 0 ≤ Real.logb 10 (max ((v : ℤ) : ℝ) 1) :=
        Real.logb_nonneg (by norm_num) (le_max_right _ _)
      constructor
      · exact le_min (mul_nonneg (div_nonneg hlog (by norm_num)) (by norm_num)) (by norm_num)
      · exact min_le_right _ _
  · intro d
    unfold normalize_keyword_difficulty
    split_ifs with h1 h2 <;> constructor <;> linarith
  · intro c
    unfold normalize_cpc
    simp only [benchmark_high_cpc, benchmark_medium_cpc, benchmark_low_cpc]
    split_ifs with h1 h2 h3 h4
    · constructor <;> norm_num
    · constructor <;> norm_num
    · push_neg at h1 h2
      have hval : 60 + (c - 2.0) / (10.0 - 2.0) * 40 = 5 * c + 50 := by ring
      rw [hval]
      constructor <;> linarith
    · push_neg at h1 h2 h3
      have hval : 20 + (c - 0.5) / (2.0 - 0.5) * 40 = 80 / 3 * c + 20 - 40 / 3 := by ring
      rw [hval]
      constructor <;> linarith
    · push_neg at h1 h2 h3 h4
      have hval : c / 0.5 * 20 = 40 * c := by ring
      rw [hval]
      constructor <;> linarith
  · intro q
    exact ⟨rfl, le_max_left _ _, max_le (by norm_num) (min_le_left _ _)⟩
  · intro qs hqs
    have hlen : 0 < qs.length := List.length_pos.mpr hqs
    have hrecent : last_twelve (qs.map TrendVal.num) =
        (qs.drop (qs.length - 12)).map TrendVal.num := by
      unfold last_twelve
      rw [List.length_map, List.map_drop]
    have hne : (qs.drop (qs.length - 12)).map TrendVal.num ≠ [] := by
      simp only [ne_eq, List.map_eq_nil_iff, List.drop_eq_nil_iff]
      omega
    simp only [calculate_trend_score, hrecent]
    rw [if_neg (by simpa [List.isEmpty_iff] using hne)]
    rw [pyFloats_map]

/-- C7 witness: the amended values-branch behaviour on a concrete
one-point series whose mean 200 lies outside 0-100. -/
theorem normalization_totality_amended_witness :
    (([(200 : ℚ)] : List ℚ) ≠ [])
    ∧ calculate_trend_score (TrendData.dictValues ([(200 : ℚ)].map TrendVal.num)) =
        Except.ok (mean_values ([(200 : ℚ)].drop ([(200 : ℚ)].length - 12))) :=
  ⟨by decide,
   (normalization_totality_amended).2.2.2.2.2.2 [(200 : ℚ)] (by decide)⟩

/-- C9: confirmed - batch scoring returns the successfully scored items
sorted descending by total_score (pairwise ordered), and the result is a
permutation of exactly the per-item scores whose computation succeeded:
an item whose scoring raises is omitted while every other item is still
scored, and the batch as a whole is total. -/
theorem score_keyword_list_sorted_skips_failures (items : List KeywordMetrics) :
    (score_keyword_list items).Pairwise (fun a b => b.total_score ≤ a.total_score)
    ∧ (score_keyword_list items).Perm
        (items.filterMap (fun m => (calculate_keyword_score m).toOption)) := by
  constructor
  · have h := @List.sorted_mergeSort KeywordScore
      (fun a b => decide (b.total_score ≤ a.total_score))
      (fun a b c h1 h2 => by
        simp only [decide_eq_true_eq] at h1 h2 ⊢
        exact le_trans h2 h1)
      (fun a b => by simpa using le_total b.total_score a.total_score)
      (items.filterMap (fun m => (calculate_keyword_score m).toOption))
    exact h.imp (fun hd => by simpa using hd)
  · exact List.mergeSort_perm _ _

/- Helper lemmas about the orchestrator run loop. -/

theorem run_agent_step_out_isSome (acc : RunAcc) (a : AgentSpec) (k : String)
    (h : (dictLookup acc.out k).isSome = true) :
    (dictLookup (run_agent_step acc a).out k).isSome = true := by
  cases hb : a.beh acc.out with
  | ok r =>
      simp only [run_agent_step, hb]
      exact dictUpdate_isSome r acc.out k h
  | error f =>
      simp only [run_agent_step, hb]
      exact h

/- Helper: with pairwise-distinct agent names and a results map fresh for
all of them, every agent of the loop contributes exactly one result or
one error - no agent is skipped and no entry is overwritten. -/
theorem fold_run_counts (agents : List AgentSpec) :
    ∀ acc : RunAcc, (agents.map AgentSpec.name).Nodup →
      (∀ a ∈ agents, assocLookup acc.results a.name = none) →
      (agents.foldl run_agent_step acc).results.length
        + (agents.foldl run_agent_step acc).errors.length
        = acc.results.length + acc.errors.length + agents.length := by
  induction agents with
  | nil =>
      intro acc _ _
      simp
  | cons a rest ih =>
      intro acc hnd hfresh
      have hnd1 : (a.name :: rest.map AgentSpec.name).Nodup := by simpa using hnd
      have hnotin : a.name ∉ rest.map AgentSpec.name := (List.nodup_cons.mp hnd1).1
      have hnd' : (rest.map AgentSpec.name).Nodup := (List.nodup_cons.mp hnd1).2
      simp only [List.foldl_cons]
      cases hb : a.beh acc.out with
      | ok r =>
          have hfr : assocLookup acc.results a.name = none :=
            hfresh a (List.mem_cons_self a rest)
          have hstep : run_agent_step acc a =
              ⟨dictUpdate acc.out r, assocInsert acc.results a.name r, acc.errors⟩ := by
            simp only [run_agent_step, hb]
          rw [hstep]
          have hrec := ih ⟨dictUpdate acc.out r, assocInsert acc.results a.name r, acc.errors⟩
            hnd' ?_
          · rw [hrec]
            dsimp only
            rw [assocInsert_length_of_fresh r hfr]
            simp only [List.length_cons]
            omega
          · intro b hbm
            have hne : a.name ≠ b.name := by
              intro he
              exact hnotin (he ▸ List.mem_map_of_mem AgentSpec.name hbm)
            show assocLookup (assocInsert acc.results a.name r) b.name = none
            rw [assocLookup_insert_ne _ _ hne]
            exact hfresh b (List.mem_cons_of_mem a hbm)
      | error f =>
          have hstep : run_agent_step acc a =
              { acc with errors := acc.errors ++ [agent_error_message a f] } := by
            simp only [run_agent_step, hb]
          rw [hstep]
          have hrec := ih { acc with errors := acc.errors ++ [agent_error_message a f] }
            hnd' (fun b hbm => hfresh b (List.mem_cons_of_mem a hbm))
          rw [hrec]
          simp only [List.length_append, List.length_cons, List.length_nil]
          omega

/- Helper: every key of every recorded agent result stays present in the
accumulated pipeline_output for the rest of the run. -/
theorem fold_run_result_keys (agents : List AgentSpec) :
    ∀ acc : RunAcc,
      (∀ p ∈ acc.results, ∀ kv ∈ p.2, (assocLookup acc.out kv.1).isSome = true) →
      ∀ p ∈ (agents.foldl run_agent_step acc).results, ∀ kv ∈ p.2,
        (assocLookup (agents.foldl run_agent_step acc).out kv.1).isSome = true := by
  induction agents with
  | nil =>
      intro acc hinv
      simpa using hinv
  | cons a rest ih =>
      intro acc hinv
      simp only [List.foldl_cons]
      apply ih
      intro p hp kv hkv
      cases hb : a.beh acc.out with
      | ok r =>
          have hstep : run_agent_step acc a =
              ⟨dictUpdate acc.out r, assocInsert acc.results a.name r, acc.errors⟩ := by
            simp only [run_agent_step, hb]
          rw [hstep] at hp ⊢
          rcases mem_assocInsert hp with hold | hnew
          · exact dictUpdate_isSome r acc.out kv.1 (hinv p hold kv hkv)
          · have hmem : kv ∈ r := by
              rw [hnew] at hkv
              exact hkv
            have hkv2 : (kv.1, kv.2) ∈ r := by simpa using hmem
            exact dictUpdate_mem_isSome r acc.out kv.1 kv.2 hkv2
      | error f =>
          have hstep : run_agent_step acc a =
              { acc with errors := acc.errors ++ [agent_error_message a f] } := by
            simp only [run_agent_step, hb]
          rw [hstep] at hp ⊢
          exact hinv p hp kv hkv

/-- C2: confirmed - over a fresh orchestrator with distinct agent names,
every agent contributes exactly one result or one recorded error (no
short-circuit), the final status is COMPLETED whenever any result exists
and FAILED only when results are empty and errors are not, the returned
output carries a processing summary with the agent counts and the literal
error list, and every successful agent's output keys are present in the
returned pipeline output. -/
theorem run_pipeline_partial_failure_policy (agents : List AgentSpec) (input : PDict)
    (hnodup : (agents.map AgentSpec.name).Nodup) :
    (run_pipeline (PipelineOrchestrator.init agents) input).1.results.length
        + (run_pipeline (PipelineOrchestrator.init agents) input).1.errors.length
        = agents.length
    ∧ ((run_pipeline (PipelineOrchestrator.init agents) input).1.results ≠ [] →
        (run_pipeline (PipelineOrchestrator.init agents) input).1.status =
          PipelineStatus.completed)
    ∧ ((run_pipeline (PipelineOrchestrator.init agents) input).1.status =
          PipelineStatus.failed →
        (run_pipeline (PipelineOrchestrator.init agents) input).1.results = []
        ∧ (run_pipeline (PipelineOrchestrator.init agents) input).1.errors ≠ [])
    ∧ dictLookup (run_pipeline (PipelineOrchestrator.init agents) input).2 "processing_summary"
        = some (processing_summary agents.length
            (run_pipeline (PipelineOrchestrator.init agents) input).1.results.length
            (run_pipeline (PipelineOrchestrator.init agents) input).1.errors.length
            (run_pipeline (PipelineOrchestrator.init agents) input).1.errors)
    ∧ (∀ p ∈ (run_pipeline (PipelineOrchestrator.init agents) input).1.results,
        ∀ kv ∈ p.2,
          (dictLookup (run_pipeline (PipelineOrchestrator.init agents) input).2 kv.1).isSome
            = true) := by
  refine ⟨?_, ?_, ?_, ?_, ?_⟩
  · have hc := fold_run_counts agents ⟨pipeline_seed input, [], []⟩ hnodup
      (fun a _ => rfl)
    simpa using hc
  · intro hres
    show pipeline_final_status
        (pipeline_final_acc (PipelineOrchestrator.init agents) input) = PipelineStatus.completed
    unfold pipeline_final_status
    split_ifs with he hr
    · rfl
    · rfl
    · exact absurd (List.length_pos.mpr hres) hr
  · intro hfail
    by_cases he : (pipeline_final_acc (PipelineOrchestrator.init agents) input).errors.length = 0
    · exfalso
      have hc : pipeline_final_status
          (pipeline_final_acc (PipelineOrchestrator.init agents) input)
          = PipelineStatus.completed := by
        unfold pipeline_final_status
        rw [if_pos he]
      exact PipelineStatus.noConfusion (hc.symm.trans hfail)
    · by_cases hr : 0 < (pipeline_final_acc (PipelineOrchestrator.init agents) input).results.length
      · exfalso
        have hc : pipeline_final_status
            (pipeline_final_acc (PipelineOrchestrator.init agents) input)
            = PipelineStatus.completed := by
          unfold pipeline_final_status
          rw [if_neg he, if_pos hr]
        exact PipelineStatus.noConfusion (hc.symm.trans hfail)
      · constructor
        · show (pipeline_final_acc (PipelineOrchestrator.init agents) input).results = []
          exact List.length_eq_zero.mp (by omega)
        · intro hnil
          apply he
          have : (pipeline_final_acc (PipelineOrchestrator.init agents) input).errors = [] := hnil
          rw [this]
          rfl
  · exact assocLookup_insert_self _ _ _
  · intro p hp kv hkv
    have hk := fold_run_result_keys agents ⟨pipeline_seed input, [], []⟩
      (fun p hp0 => absurd hp0 (List.not_mem_nil p)) p hp kv hkv
    exact assocLookup_insert_isSome _ "processing_summary" kv.1 _ hk

/-- C2 witness: three agents where only the second fails - two results,
one error, status COMPLETED, and both successful agents' keys present in
the pipeline output. -/
theorem run_pipeline_partial_failure_policy_witness :
    (agents3.map AgentSpec.name).Nodup
    ∧ ((run_pipeline (PipelineOrchestrator.init agents3) input3).1.results.length
        + (run_pipeline (PipelineOrchestrator.init agents3) input3).1.errors.length
        = agents3.length
       ∧ ((run_pipeline (PipelineOrchestrator.init agents3) input3).1.results ≠ [] →
          (run_pipeline (PipelineOrchestrator.init agents3) input3).1.status =
            PipelineStatus.completed)
       ∧ ((run_pipeline (PipelineOrchestrator.init agents3) input3).1.status =
            PipelineStatus.failed →
          (run_pipeline (PipelineOrchestrator.init agents3) input3).1.results = []
          ∧ (run_pipeline (PipelineOrchestrator.init agents3) input3).1.errors ≠ [])
       ∧ dictLookup (run_pipeline (PipelineOrchestrator.init agents3) input3).2 "processing_summary"
          = some (processing_summary agents3.length
              (run_pipeline (PipelineOrchestrator.init agents3) input3).1.results.length
              (run_pipeline (PipelineOrchestrator.init agents3) input3).1.errors.length
              (run_pipeline (PipelineOrchestrator.init agents3) input3).1.errors)
       ∧ (∀ p ∈ (run_pipeline (PipelineOrchestrator.init agents3) input3).1.results,
          ∀ kv ∈ p.2,
            (dictLookup (run_pipeline (PipelineOrchestrator.init agents3) input3).2 kv.1).isSome
              = true))
    ∧ (run_pipeline (PipelineOrchestrator.init agents3) input3).1.results.length = 2
    ∧ (run_pipeline (PipelineOrchestrator.init agents3) input3).1.errors =
        ["Agent keyword_analyzer failed: boom"]
    ∧ (run_pipeline (PipelineOrchestrator.init agents3) input3).1.status =
        PipelineStatus.completed
    ∧ (dictLookup (run_pipeline (PipelineOrchestrator.init agents3) input3).2
        "market_research_result").isSome = true
    ∧ (dictLookup (run_pipeline (PipelineOrchestrator.init agents3) input3).2
        "content_writer_result").isSome = true :=
  ⟨by decide,
   run_pipeline_partial_failure_policy agents3 input3 (by decide),
   by decide, by decide, by decide, by decide, by decide⟩

/- Helper: the accumulator after i+1 loop iterations is one step applied
to the accumulator after i iterations. -/
theorem run_acc_at_succ (agents : List AgentSpec) (input : PDict) (i : ℕ)
    (h : i < agents.length) :
    run_acc_at agents input (i + 1) =
      run_agent_step (run_acc_at agents input i) (agents.get ⟨i, h⟩) := by
  unfold run_acc_at
  rw [List.take_succ, List.foldl_append, List.getElem?_eq_getElem h]
  simp [List.get_eq_getElem]

theorem run_acc_at_of_le (agents : List AgentSpec) (input : PDict) {i : ℕ}
    (h : agents.length ≤ i) :
    run_acc_at agents input (i + 1) = run_acc_at agents input i := by
  unfold run_acc_at
  rw [List.take_of_length_le h, List.take_of_length_le (by omega)]

/- Helper: a key present in the state seen by iteration i is still
present in the state seen by any later iteration. -/
theorem state_before_isSome_mono (agents : List AgentSpec) (input : PDict) (k : String) :
    ∀ (i d : ℕ), (dictLookup (state_before agents input i) k).isSome = true →
      (dictLookup (state_before agents input (i + d)) k).isSome = true := by
  intro i d
  induction d with
  | zero => exact fun h => h
  | succ d ihd =>
      intro h
      have h2 := ihd h
      by_cases hlen : i + d < agents.length
      · show (dictLookup (state_before agents input (i + d + 1)) k).isSome = true
        unfold state_before
        rw [run_acc_at_succ agents input (i + d) hlen]
        exact run_agent_step_out_isSome _ _ k h2
      · show (dictLookup (state_before agents input (i + d + 1)) k).isSome = true
        unfold state_before at h2 ⊢
        rw [run_acc_at_of_le agents input (by omega)]
        exact h2

/-- C5: confirmed - the accumulated pipeline state only grows: a merge
step never removes a key (any key present before an agent's merge is
still present after it), and when agent j succeeded with output r, every
key of r is present in the state that any later agent i is invoked on -
agent i observes the merged outputs of all earlier successful agents. -/
theorem pipeline_state_grow_only (agents : List AgentSpec) (input : PDict)
    (i j : ℕ) (r : PDict) (k : String) (v : PVal)
    (hj : j < agents.length) (hij : j < i)
    (hok : (agents.get ⟨j, hj⟩).beh (state_before agents input j) = Except.ok r)
    (hkv : (k, v) ∈ r) :
    (dictLookup (state_before agents input i) k).isSome = true
    ∧ (∀ (acc : RunAcc) (a : AgentSpec) (q : String),
        (dictLookup acc.out q).isSome = true →
        (dictLookup (run_agent_step acc a).out q).isSome = true) := by
  constructor
  · have hok2 : (agents.get ⟨j, hj⟩).beh (run_acc_at agents input j).out = Except.ok r := hok
    have hbase : (dictLookup (state_before agents input (j + 1)) k).isSome = true := by
      unfold state_before
      rw [run_acc_at_succ agents input j hj]
      simp only [run_agent_step, hok2]
      exact dictUpdate_mem_isSome r _ k v hkv
    have hmono := state_before_isSome_mono agents input k (j + 1) (i - (j + 1)) hbase
    rw [show j + 1 + (i - (j + 1)) = i from by omega] at hmono
    exact hmono
  · exact fun acc a q h => run_agent_step_out_isSome acc a q h

/-- C5 witness: in the three-agent scenario, the key written by the first
agent is present in the state the third agent is invoked on. -/
theorem pipeline_state_grow_only_witness :
    (0 < agents3.length ∧ (0 : ℕ) < 2
     ∧ (agents3.get ⟨0, by decide⟩).beh (state_before agents3 input3 0) = Except.ok outA
     ∧ ("market_research_result", PVal.str "research data") ∈ outA)
    ∧ ((dictLookup (state_before agents3 input3 2) "market_research_result").isSome = true
       ∧ (∀ (acc : RunAcc) (a : AgentSpec) (q : String),
           (dictLookup acc.out q).isSome = true →
           (dictLookup (run_agent_step acc a).out q).isSome = true)) :=
  ⟨⟨by decide, by decide, rfl, by simp [outA]⟩,
   pipeline_state_grow_only agents3 input3 2 0 outA "market_research_result"
     (PVal.str "research data") (by decide) (by decide) rfl (by simp [outA])⟩

/- Helper: a run in which every agent fails leaves pipeline_output,
results untouched and appends exactly one error per agent. -/
theorem fold_run_all_fail (agents : List AgentSpec) :
    ∀ acc : RunAcc, (∀ a ∈ agents, ∀ st r, a.beh st ≠ Except.ok r) →
      (agents.foldl run_agent_step acc).out = acc.out
      ∧ (agents.foldl run_agent_step acc).results = acc.results
      ∧ (agents.foldl run_agent_step acc).errors.length = acc.errors.length + agents.length
      ∧ List.IsPrefix acc.errors (agents.foldl run_agent_step acc).errors := by
  induction agents with
  | nil =>
      intro acc _
      exact ⟨rfl, rfl, by simp, List.prefix_refl _⟩
  | cons a rest ih =>
      intro acc hfail
      simp only [List.foldl_cons]
      cases hb : a.beh acc.out with
      | ok r => exact absurd hb (hfail a (List.mem_cons_self a rest) acc.out r)
      | error f =>
          have hstep : run_agent_step acc a =
              { acc with errors := acc.errors ++ [agent_error_message a f] } := by
            simp only [run_agent_step, hb]
          rw [hstep]
          have hrec := ih { acc with errors := acc.errors ++ [agent_error_message a f] }
            (fun b hbm => hfail b (List.mem_cons_of_mem a hbm))
          refine ⟨hrec.1, hrec.2.1, ?_, ?_⟩
          · rw [hrec.2.2.1]
            simp only [List.length_append, List.length_cons, List.length_nil]
            omega
          · exact (List.prefix_append acc.errors [agent_error_message a f]).trans hrec.2.2.2

/-- C10: confirmed - run_pipeline never resets the instance results map
or errors list: a second run over the same orchestrator in which every
agent fails keeps the first run's results untouched, appends one error
per agent after the old errors, still ends COMPLETED because the
accumulated results are non-empty, and the processing summary counts the
accumulated results and errors of both runs. -/
theorem orchestrator_accumulates_across_runs (o : PipelineOrchestrator) (input : PDict)
    (hres : o.results ≠ [])
    (hfail : ∀ a ∈ o.agents_config, ∀ st r, a.beh st ≠ Except.ok r) :
    (run_pipeline o input).1.results = o.results
    ∧ (run_pipeline o input).1.status = PipelineStatus.completed
    ∧ (run_pipeline o input).1.errors.length = o.errors.length + o.agents_config.length
    ∧ List.IsPrefix o.errors (run_pipeline o input).1.errors
    ∧ dictLookup (run_pipeline o input).2 "processing_summary" =
        some (processing_summary o.agents_config.length o.results.length
          (o.errors.length + o.agents_config.length) (run_pipeline o input).1.errors) := by
  have hacc := fold_run_all_fail o.agents_config ⟨pipeline_seed input, o.results, o.errors⟩ hfail
  have hr : (pipeline_final_acc o input).results = o.results := hacc.2.1
  have hlen : (pipeline_final_acc o input).errors.length
      = o.errors.length + o.agents_config.length := hacc.2.2.1
  refine ⟨hr, ?_, hlen, hacc.2.2.2, ?_⟩
  · show pipeline_final_status (pipeline_final_acc o input) = PipelineStatus.completed
    unfold pipeline_final_status
    split_ifs with he hr2
    · rfl
    · rfl
    · exfalso
      apply hr2
      rw [hr]
      exact List.length_pos.mpr hres
  · have hself : dictLookup (run_pipeline o input).2 "processing_summary" =
        some (processing_summary o.agents_config.length
          (pipeline_final_acc o input).results.length
          (pipeline_final_acc o input).errors.length
          (pipeline_final_acc o input).errors) :=
      assocLookup_insert_self _ _ _
    rw [hr, hlen] at hself
    exact hself

/-- C10 witness: an orchestrator carrying one result and one error from a
first run, re-run over a single always-failing agent, still ends
COMPLETED with the accumulated counts. -/
theorem orchestrator_accumulates_across_runs_witness :
    (oAccum.results ≠ []
     ∧ ∀ a ∈ oAccum.agents_config, ∀ st r, a.beh st ≠ Except.ok r)
    ∧ ((run_pipeline oAccum input3).1.results = oAccum.results
       ∧ (run_pipeline oAccum input3).1.status = PipelineStatus.completed
       ∧ (run_pipeline oAccum input3).1.errors.length =
           oAccum.errors.length + oAccum.agents_config.length
       ∧ List.IsPrefix oAccum.errors (run_pipeline oAccum input3).1.errors
       ∧ dictLookup (run_pipeline oAccum input3).2 "processing_summary" =
           some (processing_summary oAccum.agents_config.length oAccum.results.length
             (oAccum.errors.length + oAccum.agents_config.length)
             (run_pipeline oAccum input3).1.errors)) :=
  ⟨⟨by simp [oAccum],
    by
      intro a ha st r
      simp only [oAccum, List.mem_singleton] at ha
      subst ha
      simp [agentDown]⟩,
   orchestrator_accumulates_across_runs oAccum input3 (by simp [oAccum])
     (by
       intro a ha st r
       simp only [oAccum, List.mem_singleton] at ha
       subst ha
       simp [agentDown])⟩
